import Mathlib

/-!
A shallow embedding of the Snapshot Aggregator and Counter-Delta Engine of
the conntrack-exporter repository.

Sources embedded:
- `internal/conntrack/model.go`   (`Entry`, `ConntrackTuple`, `DirectionStats`, `HasPorts`)
- `internal/conntrack/parser.go`  (`ParseLine`, `parseUint64`)
- `internal/ports/l7.go`          (`L7ProtocolFromDPort`)
- `internal/collector/conntrack.go` (`key`, `aggValues`, `parseAndAggregate`,
  `applySnapshot`, `delta`, `UpdateOnce`'s parse-failure path)

Modelling conventions:
- Go `uint64` is `Nat`; additions that may overflow in Go are taken `% 2^64`.
- Go maps are modelled either as association lists (snapshots, whose iteration
  the code folds over) or as functions to `Option` (the collector's `prev` map)
  and `Key → Nat` (Prometheus counter vectors, whose float64 storage is
  modelled by exact naturals).
- Go string helpers (`strings.Fields`, `strings.TrimSpace`, `strings.Cut`,
  `strconv.ParseUint`, `strconv.Atoi`) are re-implemented on character lists
  with the same semantics; whitespace is the Latin-1 part of Go's
  `unicode.IsSpace` (conntrack text is ASCII).
- `bufio.Scanner` line splitting is modelled by splitting the raw text at
  newline characters (carriage returns are removed by the subsequent
  `TrimSpace`, as in Go's `ScanLines`).
-/

namespace ConntrackExporter

/-! ## Go string primitives -/

/-- The Latin-1 fragment of Go's `unicode.IsSpace`. -/
def isGoSpace (c : Char) : Bool :=
  c = ' ' || c = '\t' || c = '\n' || c = '\r' ||
  c = Char.ofNat 0x0B || c = Char.ofNat 0x0C ||
  c = Char.ofNat 0x85 || c = Char.ofNat 0xA0

/-- `strings.TrimSpace`. -/
def goTrim (s : String) : String :=
  ⟨((s.toList.dropWhile isGoSpace).reverse.dropWhile isGoSpace).reverse⟩

def fieldsAux : List Char → List Char → List (List Char)
  | [], acc => if acc.isEmpty then [] else [acc.reverse]
  | c :: cs, acc =>
    if isGoSpace c then
      if acc.isEmpty then fieldsAux cs [] else acc.reverse :: fieldsAux cs []
    else fieldsAux cs (c :: acc)

/-- `strings.Fields`: whitespace-separated tokens, empties dropped. -/
def goFields (s : String) : List String :=
  (fieldsAux s.toList []).map fun cs => ⟨cs⟩

def cutEqAux : List Char → Option (List Char × List Char)
  | [] => none
  | c :: cs =>
    if c = '=' then some ([], cs)
    else
      match cutEqAux cs with
      | some (l, r) => some (c :: l, r)
      | none => none

/-- `strings.Cut(f, "=")`: split at the first `=`; `none` when absent. -/
def cutEq (s : String) : Option (String × String) :=
  (cutEqAux s.toList).map fun lr => (⟨lr.1⟩, ⟨lr.2⟩)

def digitsValAux : List Char → Nat → Option Nat
  | [], acc => some acc
  | c :: cs, acc =>
    if c.isDigit then digitsValAux cs (acc * 10 + (c.toNat - '0'.toNat))
    else none

/-- Base-10 value of a non-empty all-digit character list. -/
def digitsVal (cs : List Char) : Option Nat :=
  if cs.isEmpty then none else digitsValAux cs 0

/-- One past the largest `uint64`. -/
def u64size : Nat := 2 ^ 64

/-- `strconv.ParseUint(s, 10, 64)` wrapped as in the source's `parseUint64`:
no sign, base 10, must fit in 64 bits. -/
def parseUint64 (s : String) : Option Nat :=
  match digitsVal s.toList with
  | none => none
  | some n => if n < u64size then some n else none

/-- `strconv.Atoi` (i.e. `ParseInt(s, 10, 0)` with 64-bit `int`):
optional sign, base 10, must fit in `int64`. -/
def atoi (s : String) : Option Int :=
  match s.toList with
  | [] => none
  | c :: rest =>
    if c = '-' then
      match digitsVal rest with
      | none => none
      | some n => if (n : Int) ≤ 2 ^ 63 then some (-(n : Int)) else none
    else if c = '+' then
      match digitsVal rest with
      | none => none
      | some n => if (n : Int) ≤ 2 ^ 63 - 1 then some (n : Int) else none
    else
      match digitsVal (c :: rest) with
      | none => none
      | some n => if (n : Int) ≤ 2 ^ 63 - 1 then some (n : Int) else none

/-! ## `internal/conntrack/model.go` -/

/-- `DirectionStats`: bytes/packets counters in one direction. -/
structure DirectionStats where
  Packets : Nat := 0
  Bytes : Nat := 0
deriving DecidableEq

/-- `ConntrackTuple`: a network tuple; ports are empty strings when absent. -/
structure ConntrackTuple where
  SrcIP : String := ""
  DstIP : String := ""
  Sport : String := ""
  Dport : String := ""
deriving DecidableEq

/-- `Entry`: a parsed `/proc/net/nf_conntrack` line. -/
structure Entry where
  L3Proto : String := ""
  L4Proto : String := ""
  Original : ConntrackTuple := {}
  Reply : ConntrackTuple := {}
  OriginalStats : DirectionStats := {}
  ReplyStats : DirectionStats := {}
deriving DecidableEq

/-- `Entry.HasPorts`: the entry has L4 ports in the conntrack file. -/
def Entry.HasPorts (e : Entry) : Bool :=
  e.Original.Dport != "" || e.Original.Sport != ""

/-! ## `internal/conntrack/parser.go` -/

/-- The per-line accumulation of repeated `key=value` occurrences,
in order of appearance. -/
structure Collected where
  srcs : List String := []
  dsts : List String := []
  sports : List String := []
  dports : List String := []
  packets : List Nat := []
  bytes : List Nat := []

/-- The `switch` over `key=value` tokens in `ParseLine`'s field loop.
A failed `parseUint64` appends `0`, as in the source. -/
def collectFields (fs : List String) : Collected :=
  fs.foldl
    (fun col f =>
      match cutEq f with
      | none => col
      | some kv =>
        if kv.1 = "src" then { col with srcs := col.srcs ++ [kv.2] }
        else if kv.1 = "dst" then { col with dsts := col.dsts ++ [kv.2] }
        else if kv.1 = "sport" then { col with sports := col.sports ++ [kv.2] }
        else if kv.1 = "dport" then { col with dports := col.dports ++ [kv.2] }
        else if kv.1 = "packets" then
          { col with packets := col.packets ++ [(parseUint64 kv.2).getD 0] }
        else if kv.1 = "bytes" then
          { col with bytes := col.bytes ++ [(parseUint64 kv.2).getD 0] }
        else col)
    {}

/-- `conntrack.ParseLine`: tolerant parse of a single conntrack line.
First occurrences populate the original direction, second occurrences the
reply direction; the entry is valid only with a layer-3 protocol and both
original addresses. -/
def ParseLine (line : String) : Option Entry :=
  let line := goTrim line
  if line = "" then none
  else
    let fields := goFields line
    if fields.length < 1 then none
    else
      let col := collectFields fields
      let e : Entry :=
        { L3Proto := fields.getD 0 ""
          L4Proto := if fields.length ≥ 3 then fields.getD 2 "" else ""
          Original :=
            { SrcIP := col.srcs.getD 0 "", DstIP := col.dsts.getD 0 ""
              Sport := col.sports.getD 0 "", Dport := col.dports.getD 0 "" }
          Reply :=
            { SrcIP := col.srcs.getD 1 "", DstIP := col.dsts.getD 1 ""
              Sport := col.sports.getD 1 "", Dport := col.dports.getD 1 "" }
          OriginalStats :=
            { Packets := col.packets.getD 0 0, Bytes := col.bytes.getD 0 0 }
          ReplyStats :=
            { Packets := col.packets.getD 1 0, Bytes := col.bytes.getD 1 0 } }
      if e.L3Proto = "" ∨ e.Original.SrcIP = "" ∨ e.Original.DstIP = "" then none
      else some e

/-! ## `internal/ports/l7.go` -/

/-- `ports.L7ProtocolFromDPort`: short L7 protocol name from the destination
port string. -/
def L7ProtocolFromDPort (dport : String) : String :=
  if dport = "" then "unknown"
  else if dport = "0" then "na"
  else
    match atoi dport with
    | none => "unknown"
    | some p =>
      if p = 20 ∨ p = 21 then "ftp"
      else if p = 22 then "ssh"
      else if p = 23 then "telnet"
      else if p = 25 then "smtp"
      else if p = 53 then "dns"
      else if p = 80 then "http"
      else if p = 110 then "pop3"
      else if p = 143 then "imap"
      else if p = 389 then "ldap"
      else if p = 443 then "https"
      else if p = 465 ∨ p = 587 then "smtp"
      else if p = 631 then "ipp"
      else if p = 993 then "imaps"
      else if p = 995 then "pop3s"
      else if p = 3306 then "mysql"
      else if p = 5432 then "postgres"
      else if p = 6379 then "redis"
      else if p = 9200 then "elasticsearch"
      else "unknown"

/-! ## `internal/collector/conntrack.go`: data model -/

/-- `collector.key`: the aggregation key (source port excluded by design). -/
structure Key where
  Src : String
  Dst : String
  L3 : String
  L4 : String
  DPort : String
  L7 : String
deriving DecidableEq

/-- `collector.aggValues`: summed directional counters for one key. -/
structure AggValues where
  SentPackets : Nat := 0
  SentBytes : Nat := 0
  ReplyPackets : Nat := 0
  ReplyBytes : Nat := 0
deriving DecidableEq

/-- A snapshot: the map from key to aggregated values, as the association
list the code's `range` loops fold over. -/
abbrev Snapshot := List (Key × AggValues)

/-- Map lookup `m[k]` returning `none` when absent. -/
def findVal : Snapshot → Key → Option AggValues
  | [], _ => none
  | kv :: rest, k => if kv.1 = k then some kv.2 else findVal rest k

/-- Map lookup `m[k]` with the zero-value default of a Go map read. -/
def lookupAgg (m : Snapshot) (k : Key) : AggValues :=
  (findVal m k).getD {}

/-- `_, ok := m[k]` membership test. -/
def memKey (m : Snapshot) (k : Key) : Bool :=
  m.any fun kv => kv.1 == k

/-- Go map assignment `m[k] = v` on the association list: replace the
existing entry or append a new one. -/
def upsert : Snapshot → Key → AggValues → Snapshot
  | [], k, v => [(k, v)]
  | kv :: rest, k, v =>
    if kv.1 = k then (k, v) :: rest else kv :: upsert rest k v

/-! ## `internal/collector/conntrack.go`: snapshot aggregation -/

/-- The key-building block of `parseAndAggregate`'s loop body: resolve the
L7 protocol from the original destination port, then apply the port-less
sentinel substitution before assembling the key. -/
def buildKey (e : Entry) : Key :=
  let dport := e.Original.Dport
  let l7 := L7ProtocolFromDPort dport
  if e.HasPorts then
    { Src := e.Original.SrcIP, Dst := e.Original.DstIP
      L3 := e.L3Proto, L4 := e.L4Proto, DPort := dport, L7 := l7 }
  else
    { Src := e.Original.SrcIP, Dst := e.Original.DstIP
      L3 := e.L3Proto, L4 := e.L4Proto, DPort := "0", L7 := "na" }

/-- The additive merge `v.SentPackets += e.OriginalStats.Packets; …` of
`parseAndAggregate`, with Go's wrapping `uint64` addition. -/
def addVals (v : AggValues) (e : Entry) : AggValues :=
  { SentPackets := (v.SentPackets + e.OriginalStats.Packets) % u64size
    SentBytes := (v.SentBytes + e.OriginalStats.Bytes) % u64size
    ReplyPackets := (v.ReplyPackets + e.ReplyStats.Packets) % u64size
    ReplyBytes := (v.ReplyBytes + e.ReplyStats.Bytes) % u64size }

/-- The raw text split at newlines; the scanner's carriage-return and
blank-line handling is performed by the subsequent `goTrim`/empty check. -/
def splitLinesAux : List Char → List Char → List String
  | [], acc => [⟨acc.reverse⟩]
  | c :: cs, acc =>
    if c = '\n' then (⟨acc.reverse⟩ : String) :: splitLinesAux cs []
    else splitLinesAux cs (c :: acc)

def splitLines (raw : String) : List String :=
  splitLinesAux raw.toList []

/-- The scan loop of `parseAndAggregate`: trim each line, skip blanks and
lines `ParseLine` rejects, keep accepted entries in order. -/
def acceptedEntries (lines : List String) : List Entry :=
  lines.filterMap fun line =>
    let t := goTrim line
    if t = "" then none else ParseLine t

/-- The aggregation fold of `parseAndAggregate`: for each accepted entry,
add its counters into the running value of its key. -/
def aggregateEntries (es : List Entry) : Snapshot :=
  es.foldl (fun out e => upsert out (buildKey e) (addVals (lookupAgg out (buildKey e)) e)) []

/-- The per-key sum over all records of a list sharing a given key (the
spec's characterisation of Aggregated Values), with the same wrapping
`uint64` addition as the code's merge. -/
def sumFor (es : List Entry) (k : Key) : AggValues :=
  es.foldl (fun v e => if buildKey e = k then addVals v e else v) {}

/-- The error `parseAndAggregate` returns when no line was accepted. -/
def emptyErr : String := "no conntrack entries parsed from nf_conntrack"

/-- `collector.parseAndAggregate`: parse every line, aggregate by key, and
fail when not a single record was accepted. (The scanner's oversized-line
error path, unreachable for conntrack text within the 1 MiB buffer, is not
modelled; the `any` flag of the source is equivalent to the accepted-entry
list being non-empty.) -/
def parseAndAggregate (raw : String) : Except String Snapshot :=
  let es := acceptedEntries (splitLines raw)
  if es.isEmpty then Except.error emptyErr else Except.ok (aggregateEntries es)

/-! ## `internal/collector/conntrack.go`: reconciliation state -/

/-- The collector's published and private state: the `prev` map and `seen`
set guarded by the mutex, the four per-connection gauge vectors, and the
five monotonic counter vectors (Prometheus float64 counters modelled by
exact naturals). -/
structure CollectorState where
  prev : Key → Option AggValues
  seen : List Key
  gaugeSentPackets : Key → Option Nat
  gaugeSentBytes : Key → Option Nat
  gaugeReplyPackets : Key → Option Nat
  gaugeReplyBytes : Key → Option Nat
  totalConnections : Key → Nat
  totalSentPackets : Key → Nat
  totalSentBytes : Key → Nat
  totalReplyPackets : Key → Nat
  totalReplyBytes : Key → Nat

/-- `NewConntrackCollector`: empty maps, all metric vectors empty/zero. -/
def initialState : CollectorState :=
  { prev := fun _ => none
    seen := []
    gaugeSentPackets := fun _ => none
    gaugeSentBytes := fun _ => none
    gaugeReplyPackets := fun _ => none
    gaugeReplyBytes := fun _ => none
    totalConnections := fun _ => 0
    totalSentPackets := fun _ => 0
    totalSentBytes := fun _ => 0
    totalReplyPackets := fun _ => 0
    totalReplyBytes := fun _ => 0 }

/-- `collector.delta`: non-negative difference, `0` on regression. -/
def delta (prev cur : Nat) : Nat :=
  if cur < prev then 0 else cur - prev

/-- `CounterVec.Add(d)` guarded by the source's `if d > 0` check. -/
def bumpTotal (t : Key → Nat) (k : Key) (d : Nat) : Key → Nat :=
  if d > 0 then (fun k' => if k' = k then t k' + d else t k') else t

/-- The `Reset()` of the four per-connection gauge vectors. -/
def resetGauges (st : CollectorState) : CollectorState :=
  { st with
    gaugeSentPackets := fun _ => none
    gaugeSentBytes := fun _ => none
    gaugeReplyPackets := fun _ => none
    gaugeReplyBytes := fun _ => none }

/-- One iteration of the gauge-setting loop of `applySnapshot`. -/
def setGaugesEntry (st : CollectorState) (kv : Key × AggValues) : CollectorState :=
  { st with
    gaugeSentPackets := fun k' => if k' = kv.1 then some kv.2.SentPackets else st.gaugeSentPackets k'
    gaugeSentBytes := fun k' => if k' = kv.1 then some kv.2.SentBytes else st.gaugeSentBytes k'
    gaugeReplyPackets := fun k' => if k' = kv.1 then some kv.2.ReplyPackets else st.gaugeReplyPackets k'
    gaugeReplyBytes := fun k' => if k' = kv.1 then some kv.2.ReplyBytes else st.gaugeReplyBytes k' }

/-- The first-observation branch of the totals loop: increment the
connection count and record the key as seen. -/
def markSeen (st : CollectorState) (k : Key) : CollectorState :=
  if k ∈ st.seen then st
  else
    { st with
      totalConnections := fun k' => if k' = k then st.totalConnections k' + 1 else st.totalConnections k'
      seen := k :: st.seen }

/-- One iteration of the totals loop of `applySnapshot`: mark the key seen,
read the previous values (zero when absent), and add the four positive
counter deltas. -/
def applyTotalsEntry (st : CollectorState) (kv : Key × AggValues) : CollectorState :=
  let st1 := markSeen st kv.1
  let p := (st1.prev kv.1).getD {}
  { st1 with
    totalSentPackets := bumpTotal st1.totalSentPackets kv.1 (delta p.SentPackets kv.2.SentPackets)
    totalSentBytes := bumpTotal st1.totalSentBytes kv.1 (delta p.SentBytes kv.2.SentBytes)
    totalReplyPackets := bumpTotal st1.totalReplyPackets kv.1 (delta p.ReplyPackets kv.2.ReplyPackets)
    totalReplyBytes := bumpTotal st1.totalReplyBytes kv.1 (delta p.ReplyBytes kv.2.ReplyBytes) }

/-- The final `c.prev[k] = v` loop: write every entry of the current
snapshot over the base map. -/
def overwritePrev (p : Key → Option AggValues) (cur : Snapshot) : Key → Option AggValues :=
  cur.foldl (fun p kv => fun k' => if k' = kv.1 then some kv.2 else p k') p

/-- The end of `applySnapshot`: drop `prev` entries for keys absent from
`cur`, then replace-wholesale with `cur`'s values. -/
def updatePrev (st : CollectorState) (cur : Snapshot) : CollectorState :=
  { st with
    prev := overwritePrev (fun k => if memKey cur k then st.prev k else none) cur }

/-- `collector.applySnapshot`: reset and repopulate the gauges, accumulate
positive deltas into the totals, then reconcile `prev` with `cur`. -/
def applySnapshot (st : CollectorState) (cur : Snapshot) : CollectorState :=
  updatePrev (cur.foldl applyTotalsEntry (cur.foldl setGaugesEntry (resetGauges st))) cur

/-- The parse-and-publish tail of `UpdateOnce`: a parse failure returns
before `applySnapshot`, leaving the state untouched. -/
def updateOnce (st : CollectorState) (raw : String) : CollectorState :=
  match parseAndAggregate raw with
  | Except.error _ => st
  | Except.ok snap => applySnapshot st snap

/-! ## Concrete instances used by the claim theorems -/

/-- The spec's end-to-end example line. -/
def exLine1 : String :=
  "ipv4 2 tcp 6 431999 ESTABLISHED src=10.0.0.5 dst=93.184.216.34 sport=51514 dport=443 packets=10 bytes=1000 src=93.184.216.34 dst=10.0.0.5 sport=443 dport=51514 packets=8 bytes=900"

/-- The same line with a different ephemeral source port. -/
def exLine2 : String :=
  "ipv4 2 tcp 6 431999 ESTABLISHED src=10.0.0.5 dst=93.184.216.34 sport=51520 dport=443 packets=10 bytes=1000 src=93.184.216.34 dst=10.0.0.5 sport=443 dport=51520 packets=8 bytes=900"

def exKey8 : Key :=
  { Src := "10.0.0.5", Dst := "93.184.216.34", L3 := "ipv4", L4 := "tcp"
    DPort := "443", L7 := "https" }

def exVals8a : AggValues :=
  { SentPackets := 10, SentBytes := 1000, ReplyPackets := 8, ReplyBytes := 900 }

def exVals8b : AggValues :=
  { SentPackets := 20, SentBytes := 2000, ReplyPackets := 16, ReplyBytes := 1800 }

/-- A raw text none of whose lines is accepted by the parser (the second
line has no `src=`/`dst=` tokens). -/
def wRaw4 : String := "garbage line\nipv4"

def wKey3 : Key :=
  { Src := "10.0.0.1", Dst := "10.0.0.2", L3 := "ipv4", L4 := "tcp"
    DPort := "80", L7 := "http" }

def wPrev3 : AggValues := { SentPackets := 100 }

def wCur3 : AggValues := { SentPackets := 40 }

def wSt3 : CollectorState :=
  { initialState with
    prev := fun k => if k = wKey3 then some wPrev3 else none
    totalSentPackets := fun _ => 7 }

def wKeyB : Key :=
  { Src := "10.0.0.5", Dst := "10.0.0.6", L3 := "ipv4", L4 := "tcp"
    DPort := "443", L7 := "https" }

def wS1 : Snapshot := [(wKeyB, { SentBytes := 50 })]

def wS3 : Snapshot := [(wKeyB, { SentBytes := 10 })]

def ceK0 : Key :=
  { Src := "10.0.0.7", Dst := "10.0.0.8", L3 := "ipv4", L4 := "udp"
    DPort := "53", L7 := "dns" }

def ceK1 : Key :=
  { Src := "10.0.0.7", Dst := "10.0.0.9", L3 := "ipv4", L4 := "udp"
    DPort := "53", L7 := "dns" }

def ceV : AggValues :=
  { SentPackets := 1, SentBytes := 1, ReplyPackets := 1, ReplyBytes := 1 }

/-- A state that has already seen keys `ceK0` and `ceK1` and currently
tracks `ceK0` in the previous snapshot. -/
def ceSt5 : CollectorState :=
  { initialState with
    seen := [ceK0, ceK1]
    prev := fun k => if k = ceK0 then some ceV else none }

/-- A current snapshot containing only the already-seen key `ceK1`. -/
def ceCur5 : Snapshot := [(ceK1, ceV)]

/-- A parsed record with a source port but no destination port. -/
def ceE7a : Entry :=
  { L3Proto := "ipv4", L4Proto := "udp"
    Original := { SrcIP := "10.0.0.5", DstIP := "10.0.0.9", Sport := "51514", Dport := "" } }

/-- `ceE7a` with the source port removed: identical except `Sport`. -/
def ceE7b : Entry :=
  { ceE7a with Original := { ceE7a.Original with Sport := "" } }

def wE7a : Entry :=
  { L3Proto := "ipv4", L4Proto := "tcp"
    Original := { SrcIP := "10.0.0.5", DstIP := "93.184.216.34", Sport := "51514", Dport := "443" }
    OriginalStats := { Packets := 10, Bytes := 1000 }
    ReplyStats := { Packets := 8, Bytes := 900 } }

def wE7b : Entry :=
  { wE7a with Original := { wE7a.Original with Sport := "51520" } }

/-- A port-less (ICMP-like) parsed record. -/
def wE9 : Entry :=
  { L3Proto := "ipv4", L4Proto := "icmp"
    Original := { SrcIP := "10.0.0.5", DstIP := "10.0.0.6" } }

/-- A parsed record with a source port but an empty destination port. -/
def wE10 : Entry :=
  { L3Proto := "ipv4", L4Proto := "tcp"
    Original := { SrcIP := "10.0.0.5", DstIP := "10.0.0.6", Sport := "51514", Dport := "" } }

/-! ## Lemmas about `delta` and `bumpTotal` -/

theorem delta_eq_zero_of_le {p c : Nat} (h : c ≤ p) : delta p c = 0 := by
  unfold delta; split
  · rfl
  · omega

theorem delta_le (p c : Nat) : delta p c ≤ c := by
  unfold delta; split <;> omega

theorem delta_zero (c : Nat) : delta 0 c = c := by
  unfold delta; split <;> omega

theorem bumpTotal_self (t : Key → Nat) (k : Key) (d : Nat) :
    bumpTotal t k d k = t k + d := by
  unfold bumpTotal; split
  · simp
  · omega

theorem bumpTotal_other (t : Key → Nat) {k k' : Key} (d : Nat) (h : k' ≠ k) :
    bumpTotal t k d k' = t k' := by
  unfold bumpTotal; split
  · simp [h]
  · rfl

theorem le_bumpTotal (t : Key → Nat) (k k' : Key) (d : Nat) :
    t k' ≤ bumpTotal t k d k' := by
  unfold bumpTotal; split
  · dsimp only; split <;> omega
  · exact Nat.le_refl _

/-! ## Lemmas about `memKey` and `findVal` -/

theorem memKey_iff (m : Snapshot) (k : Key) :
    memKey m k = true ↔ k ∈ m.map Prod.fst := by
  induction m with
  | nil => simp [memKey]
  | cons kv rest ih =>
    simp only [memKey, List.any_cons, Bool.or_eq_true, beq_iff_eq, List.map_cons,
      List.mem_cons] at ih ⊢
    rw [ih]
    constructor
    · rintro (h | h)
      · exact Or.inl h.symm
      · exact Or.inr h
    · rintro (h | h)
      · exact Or.inl h.symm
      · exact Or.inr h

theorem findVal_eq_none (m : Snapshot) (k : Key) (h : k ∉ m.map Prod.fst) :
    findVal m k = none := by
  induction m with
  | nil => rfl
  | cons kv rest ih =>
    simp only [List.map_cons, List.mem_cons] at h
    push_neg at h
    unfold findVal
    rw [if_neg (fun he => h.1 he.symm)]
    exact ih h.2

theorem findVal_nodup_mem (m : Snapshot) (k : Key) (v : AggValues)
    (hnd : (m.map Prod.fst).Nodup) (hm : (k, v) ∈ m) :
    findVal m k = some v := by
  induction m with
  | nil => cases hm
  | cons kv rest ih =>
    simp only [List.map_cons, List.nodup_cons] at hnd
    rcases List.mem_cons.mp hm with heq | hmem
    · cases heq
      unfold findVal
      rw [if_pos rfl]
    · have hk : kv.1 ≠ k := fun he => hnd.1 (he ▸ List.mem_map_of_mem Prod.fst hmem)
      unfold findVal
      rw [if_neg hk]
      exact ih hnd.2 hmem

/-! ## Projection lemmas for the stages of `applySnapshot` -/

theorem foldl_proj_eq {α β γ : Type _} (proj : β → γ) (f : β → α → β)
    (h : ∀ s a, proj (f s a) = proj s) :
    ∀ (l : List α) (s : β), proj (l.foldl f s) = proj s := by
  intro l
  induction l with
  | nil => intro s; rfl
  | cons a rest ih => intro s; rw [List.foldl_cons, ih, h]

theorem foldl_proj_le {α β : Type _} (proj : β → Nat) (f : β → α → β)
    (h : ∀ s a, proj s ≤ proj (f s a)) :
    ∀ (l : List α) (s : β), proj s ≤ proj (l.foldl f s) := by
  intro l
  induction l with
  | nil => intro s; exact Nat.le_refl _
  | cons a rest ih => intro s; exact Nat.le_trans (h s a) (ih (f s a))

theorem foldl_proj_eq_of {α β γ : Type _} (proj : β → γ) (f : β → α → β)
    (P : α → Prop) (h : ∀ s a, P a → proj (f s a) = proj s) :
    ∀ (l : List α) (s : β), (∀ a ∈ l, P a) → proj (l.foldl f s) = proj s := by
  intro l
  induction l with
  | nil => intro s _; rfl
  | cons a rest ih =>
    intro s hP
    rw [List.foldl_cons, ih (f s a) (fun x hx => hP x (List.mem_cons_of_mem a hx)),
      h s a (hP a (List.mem_cons_self a rest))]

theorem markSeen_prev (st : CollectorState) (k : Key) :
    (markSeen st k).prev = st.prev := by
  unfold markSeen; split <;> rfl

theorem markSeen_totalSentPackets (st : CollectorState) (k : Key) :
    (markSeen st k).totalSentPackets = st.totalSentPackets := by
  unfold markSeen; split <;> rfl

theorem markSeen_totalSentBytes (st : CollectorState) (k : Key) :
    (markSeen st k).totalSentBytes = st.totalSentBytes := by
  unfold markSeen; split <;> rfl

theorem markSeen_totalReplyPackets (st : CollectorState) (k : Key) :
    (markSeen st k).totalReplyPackets = st.totalReplyPackets := by
  unfold markSeen; split <;> rfl

theorem markSeen_totalReplyBytes (st : CollectorState) (k : Key) :
    (markSeen st k).totalReplyBytes = st.totalReplyBytes := by
  unfold markSeen; split <;> rfl

theorem markSeen_seen_mem (st : CollectorState) (k k' : Key) :
    k' ∈ (markSeen st k).seen ↔ k' ∈ st.seen ∨ k' = k := by
  unfold markSeen; split
  · rename_i h
    constructor
    · exact Or.inl
    · rintro (h' | rfl)
      · exact h'
      · exact h
  · show k' ∈ k :: st.seen ↔ _
    rw [List.mem_cons]
    exact Or.comm

/-! ## Lemmas about `applyTotalsEntry` -/

theorem applyTotalsEntry_prev (st : CollectorState) (kv : Key × AggValues) :
    (applyTotalsEntry st kv).prev = st.prev := by
  simp only [applyTotalsEntry]
  exact markSeen_prev st kv.1

theorem applyTotalsEntry_seen (st : CollectorState) (kv : Key × AggValues) :
    (applyTotalsEntry st kv).seen = (markSeen st kv.1).seen := rfl

theorem applyTotalsEntry_totalSentPackets_self (st : CollectorState) (k : Key) (v : AggValues) :
    (applyTotalsEntry st (k, v)).totalSentPackets k
      = st.totalSentPackets k + delta ((st.prev k).getD {}).SentPackets v.SentPackets := by
  simp only [applyTotalsEntry, markSeen_prev, markSeen_totalSentPackets]
  exact bumpTotal_self _ _ _

theorem applyTotalsEntry_totalSentBytes_self (st : CollectorState) (k : Key) (v : AggValues) :
    (applyTotalsEntry st (k, v)).totalSentBytes k
      = st.totalSentBytes k + delta ((st.prev k).getD {}).SentBytes v.SentBytes := by
  simp only [applyTotalsEntry, markSeen_prev, markSeen_totalSentBytes]
  exact bumpTotal_self _ _ _

theorem applyTotalsEntry_totalSentPackets_other (st : CollectorState)
    (kv : Key × AggValues) (k : Key) (h : kv.1 ≠ k) :
    (applyTotalsEntry st kv).totalSentPackets k = st.totalSentPackets k := by
  simp only [applyTotalsEntry, markSeen_totalSentPackets]
  exact bumpTotal_other _ _ (Ne.symm h)

theorem applyTotalsEntry_totalSentBytes_other (st : CollectorState)
    (kv : Key × AggValues) (k : Key) (h : kv.1 ≠ k) :
    (applyTotalsEntry st kv).totalSentBytes k = st.totalSentBytes k := by
  simp only [applyTotalsEntry, markSeen_totalSentBytes]
  exact bumpTotal_other _ _ (Ne.symm h)

theorem applyTotalsEntry_totalSentPackets_le (st : CollectorState)
    (kv : Key × AggValues) (k : Key) :
    st.totalSentPackets k ≤ (applyTotalsEntry st kv).totalSentPackets k := by
  simp only [applyTotalsEntry, markSeen_totalSentPackets]
  exact le_bumpTotal _ _ _ _

theorem applyTotalsEntry_totalSentBytes_le (st : CollectorState)
    (kv : Key × AggValues) (k : Key) :
    st.totalSentBytes k ≤ (applyTotalsEntry st kv).totalSentBytes k := by
  simp only [applyTotalsEntry, markSeen_totalSentBytes]
  exact le_bumpTotal _ _ _ _

theorem applyTotalsEntry_totalReplyPackets_le (st : CollectorState)
    (kv : Key × AggValues) (k : Key) :
    st.totalReplyPackets k ≤ (applyTotalsEntry st kv).totalReplyPackets k := by
  simp only [applyTotalsEntry, markSeen_totalReplyPackets]
  exact le_bumpTotal _ _ _ _

theorem applyTotalsEntry_totalReplyBytes_le (st : CollectorState)
    (kv : Key × AggValues) (k : Key) :
    st.totalReplyBytes k ≤ (applyTotalsEntry st kv).totalReplyBytes k := by
  simp only [applyTotalsEntry, markSeen_totalReplyBytes]
  exact le_bumpTotal _ _ _ _

/-! ## The totals loop over a whole snapshot -/

theorem foldl_totals_seen_mem (cur : Snapshot) :
    ∀ (st : CollectorState) (k : Key),
      k ∈ (cur.foldl applyTotalsEntry st).seen ↔ k ∈ st.seen ∨ k ∈ cur.map Prod.fst := by
  induction cur with
  | nil => intro st k; simp
  | cons kv rest ih =>
    intro st k
    rw [List.foldl_cons, ih, applyTotalsEntry_seen, markSeen_seen_mem]
    simp only [List.map_cons, List.mem_cons]
    tauto

theorem foldl_totals_sentPackets (cur : Snapshot) :
    ∀ (st : CollectorState) (k : Key) (v : AggValues),
      (cur.map Prod.fst).Nodup → (k, v) ∈ cur →
      (cur.foldl applyTotalsEntry st).totalSentPackets k
        = st.totalSentPackets k + delta ((st.prev k).getD {}).SentPackets v.SentPackets := by
  induction cur with
  | nil => intro st k v _ hm; cases hm
  | cons kv rest ih =>
    intro st k v hnd hm
    simp only [List.map_cons, List.nodup_cons] at hnd
    rw [List.foldl_cons]
    rcases List.mem_cons.mp hm with heq | hmem
    · cases heq
      have hk : k ∉ rest.map Prod.fst := by simpa using hnd.1
      have hpres : ((rest.foldl applyTotalsEntry (applyTotalsEntry st (k, v))).totalSentPackets k)
          = (applyTotalsEntry st (k, v)).totalSentPackets k :=
        foldl_proj_eq_of (fun s => s.totalSentPackets k) applyTotalsEntry (fun a => a.1 ≠ k)
          (fun s a ha => applyTotalsEntry_totalSentPackets_other s a k ha) rest _
          (fun a ha he => hk (by rw [← he]; exact List.mem_map_of_mem Prod.fst ha))
      rw [hpres, applyTotalsEntry_totalSentPackets_self]
    · have hk1 : kv.1 ≠ k := fun he => hnd.1 (he ▸ List.mem_map_of_mem Prod.fst hmem)
      rw [ih (applyTotalsEntry st kv) k v hnd.2 hmem,
        applyTotalsEntry_totalSentPackets_other st kv k hk1, applyTotalsEntry_prev]

theorem foldl_totals_sentBytes (cur : Snapshot) :
    ∀ (st : CollectorState) (k : Key) (v : AggValues),
      (cur.map Prod.fst).Nodup → (k, v) ∈ cur →
      (cur.foldl applyTotalsEntry st).totalSentBytes k
        = st.totalSentBytes k + delta ((st.prev k).getD {}).SentBytes v.SentBytes := by
  induction cur with
  | nil => intro st k v _ hm; cases hm
  | cons kv rest ih =>
    intro st k v hnd hm
    simp only [List.map_cons, List.nodup_cons] at hnd
    rw [List.foldl_cons]
    rcases List.mem_cons.mp hm with heq | hmem
    · cases heq
      have hk : k ∉ rest.map Prod.fst := by simpa using hnd.1
      have hpres : ((rest.foldl applyTotalsEntry (applyTotalsEntry st (k, v))).totalSentBytes k)
          = (applyTotalsEntry st (k, v)).totalSentBytes k :=
        foldl_proj_eq_of (fun s => s.totalSentBytes k) applyTotalsEntry (fun a => a.1 ≠ k)
          (fun s a ha => applyTotalsEntry_totalSentBytes_other s a k ha) rest _
          (fun a ha he => hk (by rw [← he]; exact List.mem_map_of_mem Prod.fst ha))
      rw [hpres, applyTotalsEntry_totalSentBytes_self]
    · have hk1 : kv.1 ≠ k := fun he => hnd.1 (he ▸ List.mem_map_of_mem Prod.fst hmem)
      rw [ih (applyTotalsEntry st kv) k v hnd.2 hmem,
        applyTotalsEntry_totalSentBytes_other st kv k hk1, applyTotalsEntry_prev]

/-! ## Lemmas about `overwritePrev` and `updatePrev` -/

theorem overwritePrev_not_mem (cur : Snapshot) :
    ∀ (p : Key → Option AggValues) (k : Key), k ∉ cur.map Prod.fst →
      overwritePrev p cur k = p k := by
  induction cur with
  | nil => intro p k _; rfl
  | cons kv rest ih =>
    intro p k h
    simp only [List.map_cons, List.mem_cons] at h
    push_neg at h
    show overwritePrev (fun k' => if k' = kv.1 then some kv.2 else p k') rest k = p k
    rw [ih _ k h.2]
    exact if_neg h.1

theorem overwritePrev_isSome (cur : Snapshot) :
    ∀ (p : Key → Option AggValues) (k : Key),
      (overwritePrev p cur k).isSome = ((p k).isSome || memKey cur k) := by
  induction cur with
  | nil => intro p k; simp [overwritePrev, memKey]
  | cons kv rest ih =>
    intro p k
    show (overwritePrev (fun k' => if k' = kv.1 then some kv.2 else p k') rest k).isSome = _
    rw [ih]
    by_cases h : k = kv.1
    · simp [h, memKey, List.any_cons]
    · simp only [if_neg h, memKey, List.any_cons]
      have : (kv.1 == k) = false := by
        simp only [beq_eq_false_iff_ne, ne_eq]
        exact fun he => h he.symm
      rw [this]
      simp [memKey]

theorem overwritePrev_nodup_mem (cur : Snapshot) :
    ∀ (p : Key → Option AggValues) (k : Key) (v : AggValues),
      (cur.map Prod.fst).Nodup → (k, v) ∈ cur →
      overwritePrev p cur k = some v := by
  induction cur with
  | nil => intro _ _ _ _ hm; cases hm
  | cons kv rest ih =>
    intro p k v hnd hm
    simp only [List.map_cons, List.nodup_cons] at hnd
    show overwritePrev (fun k' => if k' = kv.1 then some kv.2 else p k') rest k = some v
    rcases List.mem_cons.mp hm with heq | hmem
    · cases heq
      have hk : k ∉ rest.map Prod.fst := by simpa using hnd.1
      rw [overwritePrev_not_mem rest _ k hk]
      simp
    · exact ih _ k v hnd.2 hmem

theorem updatePrev_prev (st : CollectorState) (cur : Snapshot) :
    (updatePrev st cur).prev
      = overwritePrev (fun k => if memKey cur k then st.prev k else none) cur := rfl

/-! ## Assembled lemmas about `applySnapshot` -/

theorem setGaugesEntry_prev (s : CollectorState) (kv : Key × AggValues) :
    (setGaugesEntry s kv).prev = s.prev := rfl

theorem setGaugesEntry_seen (s : CollectorState) (kv : Key × AggValues) :
    (setGaugesEntry s kv).seen = s.seen := rfl

theorem applySnapshot_stage2_prev (st : CollectorState) (cur : Snapshot) :
    (cur.foldl setGaugesEntry (resetGauges st)).prev = st.prev :=
  foldl_proj_eq (fun s => s.prev) setGaugesEntry setGaugesEntry_prev cur _

theorem applySnapshot_stage2_seen (st : CollectorState) (cur : Snapshot) :
    (cur.foldl setGaugesEntry (resetGauges st)).seen = st.seen :=
  foldl_proj_eq (fun s => s.seen) setGaugesEntry setGaugesEntry_seen cur _

theorem applySnapshot_stage3_prev (st : CollectorState) (cur cur' : Snapshot) :
    (cur'.foldl applyTotalsEntry (cur.foldl setGaugesEntry (resetGauges st))).prev = st.prev := by
  rw [foldl_proj_eq (fun s => s.prev) applyTotalsEntry applyTotalsEntry_prev cur' _]
  exact applySnapshot_stage2_prev st cur

/-- The reconciled `prev` map is exactly the current snapshot's lookup
function (for a genuine snapshot, whose keys are distinct). -/
theorem applySnapshot_prev (st : CollectorState) (cur : Snapshot) (k : Key)
    (hnd : (cur.map Prod.fst).Nodup) :
    (applySnapshot st cur).prev k = findVal cur k := by
  rw [applySnapshot, updatePrev_prev]
  by_cases hmem : k ∈ cur.map Prod.fst
  · obtain ⟨a, ha, hfst⟩ := List.mem_map.mp hmem
    have hav : (k, a.2) ∈ cur := by
      have : a = (k, a.2) := by
        rw [← hfst]
      rw [← this]
      exact ha
    rw [overwritePrev_nodup_mem cur _ k a.2 hnd hav, findVal_nodup_mem cur k a.2 hnd hav]
  · rw [overwritePrev_not_mem cur _ k hmem, findVal_eq_none cur k hmem]
    have : memKey cur k = false := by
      rw [← Bool.not_eq_true, memKey_iff]
      exact hmem
    rw [this]
    simp

/-- A key absent from the current snapshot is absent from the reconciled
`prev` map, whatever state the step started from. -/
theorem applySnapshot_prev_none (st : CollectorState) (cur : Snapshot) (k : Key)
    (h : memKey cur k = false) :
    (applySnapshot st cur).prev k = none := by
  have hmem : k ∉ cur.map Prod.fst := fun hc => by
    rw [(memKey_iff cur k).mpr hc] at h
    cases h
  rw [applySnapshot, updatePrev_prev, overwritePrev_not_mem cur _ k hmem, h]
  simp

/-- Membership in `seen` after a reconciliation step. -/
theorem applySnapshot_seen_mem (st : CollectorState) (cur : Snapshot) (k : Key) :
    k ∈ (applySnapshot st cur).seen ↔ k ∈ st.seen ∨ k ∈ cur.map Prod.fst := by
  show k ∈ (cur.foldl applyTotalsEntry (cur.foldl setGaugesEntry (resetGauges st))).seen ↔ _
  rw [foldl_totals_seen_mem, applySnapshot_stage2_seen]

/-- The `prev` entries surviving a reconciliation step are exactly the
current snapshot's keys. -/
theorem applySnapshot_prev_isSome (st : CollectorState) (cur : Snapshot) (k : Key) :
    ((applySnapshot st cur).prev k).isSome = memKey cur k := by
  rw [applySnapshot, updatePrev_prev, overwritePrev_isSome]
  by_cases h : memKey cur k = true
  · simp [h]
  · rw [Bool.not_eq_true] at h
    simp [h]

/-! ## Totals across a whole `applySnapshot` step -/

theorem setGaugesEntry_totalSentPackets (s : CollectorState) (kv : Key × AggValues) :
    (setGaugesEntry s kv).totalSentPackets = s.totalSentPackets := rfl

theorem setGaugesEntry_totalSentBytes (s : CollectorState) (kv : Key × AggValues) :
    (setGaugesEntry s kv).totalSentBytes = s.totalSentBytes := rfl

theorem setGaugesEntry_totalReplyPackets (s : CollectorState) (kv : Key × AggValues) :
    (setGaugesEntry s kv).totalReplyPackets = s.totalReplyPackets := rfl

theorem setGaugesEntry_totalReplyBytes (s : CollectorState) (kv : Key × AggValues) :
    (setGaugesEntry s kv).totalReplyBytes = s.totalReplyBytes := rfl

theorem applySnapshot_stage2_totalSentPackets (st : CollectorState) (cur : Snapshot) :
    (cur.foldl setGaugesEntry (resetGauges st)).totalSentPackets = st.totalSentPackets :=
  foldl_proj_eq (fun s => s.totalSentPackets) setGaugesEntry setGaugesEntry_totalSentPackets cur _

theorem applySnapshot_stage2_totalSentBytes (st : CollectorState) (cur : Snapshot) :
    (cur.foldl setGaugesEntry (resetGauges st)).totalSentBytes = st.totalSentBytes :=
  foldl_proj_eq (fun s => s.totalSentBytes) setGaugesEntry setGaugesEntry_totalSentBytes cur _

theorem applySnapshot_stage2_totalReplyPackets (st : CollectorState) (cur : Snapshot) :
    (cur.foldl setGaugesEntry (resetGauges st)).totalReplyPackets = st.totalReplyPackets :=
  foldl_proj_eq (fun s => s.totalReplyPackets) setGaugesEntry setGaugesEntry_totalReplyPackets cur _

theorem applySnapshot_stage2_totalReplyBytes (st : CollectorState) (cur : Snapshot) :
    (cur.foldl setGaugesEntry (resetGauges st)).totalReplyBytes = st.totalReplyBytes :=
  foldl_proj_eq (fun s => s.totalReplyBytes) setGaugesEntry setGaugesEntry_totalReplyBytes cur _

theorem applySnapshot_totalSentPackets_le (st : CollectorState) (cur : Snapshot) (k : Key) :
    st.totalSentPackets k ≤ (applySnapshot st cur).totalSentPackets k := by
  show st.totalSentPackets k
    ≤ (cur.foldl applyTotalsEntry (cur.foldl setGaugesEntry (resetGauges st))).totalSentPackets k
  have h := foldl_proj_le (fun s => s.totalSentPackets k) applyTotalsEntry
    (fun s a => applyTotalsEntry_totalSentPackets_le s a k) cur
    (cur.foldl setGaugesEntry (resetGauges st))
  rwa [applySnapshot_stage2_totalSentPackets] at h

theorem applySnapshot_totalSentBytes_le (st : CollectorState) (cur : Snapshot) (k : Key) :
    st.totalSentBytes k ≤ (applySnapshot st cur).totalSentBytes k := by
  show st.totalSentBytes k
    ≤ (cur.foldl applyTotalsEntry (cur.foldl setGaugesEntry (resetGauges st))).totalSentBytes k
  have h := foldl_proj_le (fun s => s.totalSentBytes k) applyTotalsEntry
    (fun s a => applyTotalsEntry_totalSentBytes_le s a k) cur
    (cur.foldl setGaugesEntry (resetGauges st))
  rwa [applySnapshot_stage2_totalSentBytes] at h

theorem applySnapshot_totalReplyPackets_le (st : CollectorState) (cur : Snapshot) (k : Key) :
    st.totalReplyPackets k ≤ (applySnapshot st cur).totalReplyPackets k := by
  show st.totalReplyPackets k
    ≤ (cur.foldl applyTotalsEntry (cur.foldl setGaugesEntry (resetGauges st))).totalReplyPackets k
  have h := foldl_proj_le (fun s => s.totalReplyPackets k) applyTotalsEntry
    (fun s a => applyTotalsEntry_totalReplyPackets_le s a k) cur
    (cur.foldl setGaugesEntry (resetGauges st))
  rwa [applySnapshot_stage2_totalReplyPackets] at h

theorem applySnapshot_totalReplyBytes_le (st : CollectorState) (cur : Snapshot) (k : Key) :
    st.totalReplyBytes k ≤ (applySnapshot st cur).totalReplyBytes k := by
  show st.totalReplyBytes k
    ≤ (cur.foldl applyTotalsEntry (cur.foldl setGaugesEntry (resetGauges st))).totalReplyBytes k
  have h := foldl_proj_le (fun s => s.totalReplyBytes k) applyTotalsEntry
    (fun s a => applyTotalsEntry_totalReplyBytes_le s a k) cur
    (cur.foldl setGaugesEntry (resetGauges st))
  rwa [applySnapshot_stage2_totalReplyBytes] at h

/-- The exact movement of the sent-packets total across one step: for a key
present in the (duplicate-free) current snapshot, the total advances by the
non-negative delta against the previous snapshot's value for that key. -/
theorem applySnapshot_totalSentPackets_eq (st : CollectorState) (cur : Snapshot)
    (k : Key) (v : AggValues) (hnd : (cur.map Prod.fst).Nodup) (hm : (k, v) ∈ cur) :
    (applySnapshot st cur).totalSentPackets k
      = st.totalSentPackets k + delta ((st.prev k).getD {}).SentPackets v.SentPackets := by
  show (cur.foldl applyTotalsEntry (cur.foldl setGaugesEntry (resetGauges st))).totalSentPackets k = _
  rw [foldl_totals_sentPackets cur _ k v hnd hm, applySnapshot_stage2_totalSentPackets,
    applySnapshot_stage2_prev]

/-- The exact movement of the sent-bytes total across one step. -/
theorem applySnapshot_totalSentBytes_eq (st : CollectorState) (cur : Snapshot)
    (k : Key) (v : AggValues) (hnd : (cur.map Prod.fst).Nodup) (hm : (k, v) ∈ cur) :
    (applySnapshot st cur).totalSentBytes k
      = st.totalSentBytes k + delta ((st.prev k).getD {}).SentBytes v.SentBytes := by
  show (cur.foldl applyTotalsEntry (cur.foldl setGaugesEntry (resetGauges st))).totalSentBytes k = _
  rw [foldl_totals_sentBytes cur _ k v hnd hm, applySnapshot_stage2_totalSentBytes,
    applySnapshot_stage2_prev]

/-- Once a key is absent from every snapshot of a non-empty run of
reconciliation steps, its `prev` entry is gone at the end of the run. -/
theorem foldl_applySnapshot_prev_none (K : Key) :
    ∀ (l : List Snapshot) (st : CollectorState), l ≠ [] →
      (∀ s ∈ l, memKey s K = false) →
      ((l.foldl applySnapshot st).prev K) = none := by
  intro l
  induction l with
  | nil => intro st h _; cases h rfl
  | cons s rest ih =>
    intro st _ habs
    rw [List.foldl_cons]
    by_cases hr : rest = []
    · subst hr
      rw [List.foldl_nil]
      exact applySnapshot_prev_none st s K (habs s (List.mem_cons_self s []))
    · exact ih (applySnapshot st s) hr (fun x hx => habs x (List.mem_cons_of_mem s hx))

/-! ## Aggregation lemmas -/

theorem findVal_upsert (m : Snapshot) (k : Key) (v : AggValues) (k' : Key) :
    findVal (upsert m k v) k' = if k = k' then some v else findVal m k' := by
  induction m with
  | nil => rfl
  | cons kv rest ih =>
    show findVal (if kv.1 = k then (k, v) :: rest else kv :: upsert rest k v) k' = _
    by_cases h : kv.1 = k
    · rw [if_pos h]
      show (if k = k' then some v else findVal rest k') = _
      by_cases h1 : k = k'
      · rw [if_pos h1, if_pos h1]
      · have hk : ¬ kv.1 = k' := by rw [h]; exact h1
        rw [if_neg h1, if_neg h1]
        show findVal rest k' = if kv.1 = k' then some kv.2 else findVal rest k'
        rw [if_neg hk]
    · rw [if_neg h]
      show (if kv.1 = k' then some kv.2 else findVal (upsert rest k v) k') = _
      by_cases h2 : kv.1 = k'
      · have hkk : ¬ k = k' := fun he => h (h2.trans he.symm)
        rw [if_pos h2, if_neg hkk]
        show some kv.2 = if kv.1 = k' then some kv.2 else findVal rest k'
        rw [if_pos h2]
      · rw [if_neg h2, ih]
        by_cases h3 : k = k'
        · rw [if_pos h3, if_pos h3]
        · rw [if_neg h3, if_neg h3]
          show findVal rest k' = if kv.1 = k' then some kv.2 else findVal rest k'
          rw [if_neg h2]

theorem lookupAgg_upsert (m : Snapshot) (k : Key) (v : AggValues) (k' : Key) :
    lookupAgg (upsert m k v) k' = if k = k' then v else lookupAgg m k' := by
  unfold lookupAgg
  rw [findVal_upsert]
  by_cases h : k = k'
  · rw [if_pos h, if_pos h]
    rfl
  · rw [if_neg h, if_neg h]

/-- The aggregation fold computes, at any key, the running sum of the
counters of the entries mapping to that key. -/
theorem aggregateEntries_lookup (es : List Entry) :
    ∀ (out : Snapshot) (k : Key),
      lookupAgg (es.foldl
        (fun out e => upsert out (buildKey e) (addVals (lookupAgg out (buildKey e)) e)) out) k
        = es.foldl (fun v e => if buildKey e = k then addVals v e else v) (lookupAgg out k) := by
  induction es with
  | nil => intro out k; rfl
  | cons e rest ih =>
    intro out k
    rw [List.foldl_cons, List.foldl_cons, ih]
    congr 1
    rw [lookupAgg_upsert]
    by_cases h : buildKey e = k
    · rw [if_pos h, if_pos h, h]
    · rw [if_neg h, if_neg h]

/-- The value a snapshot assigns to a key is the sum over the records
sharing that key. -/
theorem aggregateEntries_sumFor (es : List Entry) (k : Key) :
    lookupAgg (aggregateEntries es) k = sumFor es k :=
  aggregateEntries_lookup es [] k

/-- `buildKey` depends only on the original addresses, the protocols, the
original destination port, and `HasPorts`. -/
theorem buildKey_congr (e1 e2 : Entry)
    (h1 : e1.Original.SrcIP = e2.Original.SrcIP)
    (h2 : e1.Original.DstIP = e2.Original.DstIP)
    (h3 : e1.Original.Dport = e2.Original.Dport)
    (h4 : e1.L3Proto = e2.L3Proto) (h5 : e1.L4Proto = e2.L4Proto)
    (hp : e1.HasPorts = e2.HasPorts) :
    buildKey e1 = buildKey e2 := by
  unfold buildKey
  rw [h1, h2, h3, h4, h5, hp]

/-! ## Claim theorems -/

/-- **C1**: for every sequence of snapshots applied via `applySnapshot`
(including snapshots where a key's counter value drops below its previous
value), the published monotonic total for every (key, counter) pair is
non-decreasing across the sequence, for each of `totalSentPackets`,
`totalSentBytes`, `totalReplyPackets` and `totalReplyBytes`. -/
theorem C1_monotonic_totals (st : CollectorState) (snaps : List Snapshot) (k : Key) :
    st.totalSentPackets k ≤ (snaps.foldl applySnapshot st).totalSentPackets k ∧
    st.totalSentBytes k ≤ (snaps.foldl applySnapshot st).totalSentBytes k ∧
    st.totalReplyPackets k ≤ (snaps.foldl applySnapshot st).totalReplyPackets k ∧
    st.totalReplyBytes k ≤ (snaps.foldl applySnapshot st).totalReplyBytes k :=
  ⟨foldl_proj_le (fun s => s.totalSentPackets k) applySnapshot
      (fun s c => applySnapshot_totalSentPackets_le s c k) snaps st,
   foldl_proj_le (fun s => s.totalSentBytes k) applySnapshot
      (fun s c => applySnapshot_totalSentBytes_le s c k) snaps st,
   foldl_proj_le (fun s => s.totalReplyPackets k) applySnapshot
      (fun s c => applySnapshot_totalReplyPackets_le s c k) snaps st,
   foldl_proj_le (fun s => s.totalReplyBytes k) applySnapshot
      (fun s c => applySnapshot_totalReplyBytes_le s c k) snaps st⟩

/-- **C2**: a key present with `sentBytes=50`, absent from the next
snapshot(s), reappearing later with `sentBytes=10`, advances its monotonic
sent-bytes total by exactly `10` in the reappearance cycle: the
disappearance deleted the key from `prev`, so the reappearance is measured
against a zero baseline. -/
theorem C2_reappearance_baseline (st0 : CollectorState) (s1 : Snapshot)
    (mid : List Snapshot) (s3 : Snapshot) (K : Key) (v1 v3 : AggValues)
    (_h1 : (K, v1) ∈ s1) (_hv1 : v1.SentBytes = 50)
    (hmid : mid ≠ []) (habs : ∀ s ∈ mid, memKey s K = false)
    (h3 : (K, v3) ∈ s3) (hv3 : v3.SentBytes = 10)
    (hnd3 : (s3.map Prod.fst).Nodup) :
    (applySnapshot (mid.foldl applySnapshot (applySnapshot st0 s1)) s3).totalSentBytes K
      = (mid.foldl applySnapshot (applySnapshot st0 s1)).totalSentBytes K + 10 := by
  have hprev : (mid.foldl applySnapshot (applySnapshot st0 s1)).prev K = none :=
    foldl_applySnapshot_prev_none K mid _ hmid habs
  rw [applySnapshot_totalSentBytes_eq _ s3 K v3 hnd3 h3, hprev, hv3]
  rfl

/-- Witness for C2 at the spec's concrete scenario: key seen with 50 sent
bytes, one snapshot without it, reappearance with 10 sent bytes. -/
theorem C2_witness :
    (applySnapshot (List.foldl applySnapshot (applySnapshot initialState wS1) [[]]) wS3).totalSentBytes wKeyB
      = (List.foldl applySnapshot (applySnapshot initialState wS1) [[]]).totalSentBytes wKeyB + 10 :=
  C2_reappearance_baseline initialState wS1 [[]] wS3 wKeyB
    { SentBytes := 50 } { SentBytes := 10 }
    (by decide) (by decide) (by decide) (by decide) (by decide) (by decide) (by decide)

/-- **C3**: a counter regression yields a zero delta. `delta` returns `0`
whenever the current value is at most the previous one, never underflows
(the result is at most the current value), and a regressed counter
contributes nothing to the monotonic total across a reconciliation step. -/
theorem C3_regression_zero_delta :
    (∀ p c : Nat, c ≤ p → delta p c = 0) ∧
    (∀ p c : Nat, delta p c ≤ c) ∧
    (∀ (st : CollectorState) (cur : Snapshot) (k : Key) (v : AggValues),
      (cur.map Prod.fst).Nodup → (k, v) ∈ cur →
      v.SentPackets ≤ ((st.prev k).getD {}).SentPackets →
      (applySnapshot st cur).totalSentPackets k = st.totalSentPackets k) := by
  refine ⟨fun p c h => delta_eq_zero_of_le h, delta_le, ?_⟩
  intro st cur k v hnd hm hle
  rw [applySnapshot_totalSentPackets_eq st cur k v hnd hm, delta_eq_zero_of_le hle,
    Nat.add_zero]

/-- Witness for C3 at the spec's numbers: previous 100, current 40. -/
theorem C3_witness :
    delta 100 40 = 0 ∧ delta 100 40 ≤ 40 ∧
    (applySnapshot wSt3 [(wKey3, wCur3)]).totalSentPackets wKey3 = wSt3.totalSentPackets wKey3 :=
  ⟨C3_regression_zero_delta.1 100 40 (by decide),
   C3_regression_zero_delta.2.1 100 40,
   C3_regression_zero_delta.2.2 wSt3 [(wKey3, wCur3)] wKey3 wCur3
     (by decide) (by decide) (by decide)⟩

/-- **C4**: on an input text in which no line is accepted by the parser,
aggregation fails with the empty-snapshot error and the update cycle
returns before applying any snapshot, leaving the whole published state
(gauges, totals, `prev`, `seen`) unchanged. -/
theorem C4_empty_input (raw : String)
    (h : ∀ line ∈ splitLines raw, goTrim line = "" ∨ ParseLine (goTrim line) = none) :
    parseAndAggregate raw = Except.error emptyErr ∧
    ∀ st : CollectorState, updateOnce st raw = st := by
  have hacc : acceptedEntries (splitLines raw) = [] := by
    rw [acceptedEntries, List.filterMap_eq_nil_iff]
    intro line hl
    dsimp only
    rcases h line hl with h1 | h1
    · rw [if_pos h1]
    · split
      · rfl
      · exact h1
  have hpe : parseAndAggregate raw = Except.error emptyErr := by
    rw [parseAndAggregate, hacc]
    rfl
  exact ⟨hpe, fun st => by rw [updateOnce, hpe]⟩

/-- Witness for C4: both lines of `wRaw4` are rejected, the aggregate is
the empty-snapshot error, and the state is untouched. -/
theorem C4_witness :
    parseAndAggregate wRaw4 = Except.error emptyErr ∧
    updateOnce initialState wRaw4 = initialState :=
  ⟨(C4_empty_input wRaw4 (by decide)).1,
   (C4_empty_input wRaw4 (by decide)).2 initialState⟩

/-- **C5** (amended): in every reconciliation step, `prev`'s domain becomes
exactly the current snapshot's key set — growing by the keys newly present
and shrinking by the keys absent — while `seen` gains exactly the current
snapshot's keys (so it grows by the genuinely new ones) and never shrinks. -/
theorem C5_state_evolution (st : CollectorState) (cur : Snapshot) (k : Key) :
    (k ∈ (applySnapshot st cur).seen ↔ k ∈ st.seen ∨ k ∈ cur.map Prod.fst) ∧
    ((applySnapshot st cur).prev k).isSome = memKey cur k :=
  ⟨applySnapshot_seen_mem st cur k, applySnapshot_prev_isSome st cur k⟩

/-- Counterexample to **C5** as stated. In `ceSt5` both `ceK0` and `ceK1`
have been seen and `prev` tracks `ceK0`; the current snapshot `ceCur5`
contains only `ceK1`. The number of genuinely new keys is `0` and the key
`ceK0` is absent from the snapshot, so the claim predicts the state shrinks:
`seen` from two keys to one and `prev`'s domain from `{ceK0}` to empty.
In fact `seen` keeps both keys (it never shrinks) and `prev`'s domain
becomes `{ceK1}` (it grew by a key that is not genuinely new). -/
theorem C5_counterexample :
    ((ceCur5.map Prod.fst).filter (fun k => decide (k ∉ ceSt5.seen))).length = 0 ∧
    (ceSt5.prev ceK0).isSome = true ∧ memKey ceCur5 ceK0 = false ∧
    (applySnapshot ceSt5 ceCur5).seen.length = 2 ∧
    ((applySnapshot ceSt5 ceCur5).prev ceK1).isSome = true := by
  decide

/-- **C6**: after a reconciliation step with (duplicate-free) current
snapshot `cur`, `prev` equals `cur` exactly: every key absent from `cur`
has been dropped and every key present maps to its value in `cur`. -/
theorem C6_prev_wholesale_replace (st : CollectorState) (cur : Snapshot) (k : Key)
    (hnd : (cur.map Prod.fst).Nodup) :
    (applySnapshot st cur).prev k = findVal cur k :=
  applySnapshot_prev st cur k hnd

/-- Witness for C6: after applying `wS1`, `prev` agrees with `wS1` both on
its key `wKeyB` and on the unrelated key `wKey3`. -/
theorem C6_witness :
    (wS1.map Prod.fst).Nodup ∧
    (applySnapshot initialState wS1).prev wKeyB = findVal wS1 wKeyB ∧
    (applySnapshot initialState wS1).prev wKey3 = findVal wS1 wKey3 :=
  ⟨by decide,
   C6_prev_wholesale_replace initialState wS1 wKeyB (by decide),
   C6_prev_wholesale_replace initialState wS1 wKey3 (by decide)⟩

/-- **C7** (amended): two parsed records identical except for the original
source port map to the same aggregation key **provided they agree on
`HasPorts`** (equivalently: removing/adding the source port does not flip
the port-less sentinel case); the aggregated value of a key is the sum over
all records sharing it, and for two same-key records it is the
component-wise (wrapping `uint64`) sum of their counters. -/
theorem C7_key_collapse :
    (∀ e1 e2 : Entry,
      e1.Original.SrcIP = e2.Original.SrcIP → e1.Original.DstIP = e2.Original.DstIP →
      e1.Original.Dport = e2.Original.Dport → e1.L3Proto = e2.L3Proto →
      e1.L4Proto = e2.L4Proto → e1.HasPorts = e2.HasPorts →
      buildKey e1 = buildKey e2) ∧
    (∀ (es : List Entry) (k : Key), lookupAgg (aggregateEntries es) k = sumFor es k) ∧
    (∀ e1 e2 : Entry, buildKey e1 = buildKey e2 →
      lookupAgg (aggregateEntries [e1, e2]) (buildKey e1) = addVals (addVals {} e1) e2) := by
  refine ⟨buildKey_congr, aggregateEntries_sumFor, ?_⟩
  intro e1 e2 hk
  rw [aggregateEntries_sumFor]
  show (if buildKey e2 = buildKey e1 then
      addVals (if buildKey e1 = buildKey e1 then addVals {} e1 else {}) e2
    else (if buildKey e1 = buildKey e1 then addVals {} e1 else {})) = _
  rw [if_pos rfl, if_pos hk.symm]

/-- Counterexample to **C7** as stated: `ceE7a` and `ceE7b` are identical
in every field except the original source port (one has `sport=51514`, the
other none), yet they aggregate under *different* keys: `ceE7a` has a port,
so its key keeps `dport=""`/`l7="unknown"`, while `ceE7b` is port-less and
gets the sentinels `dport="0"`/`l7="na"`. -/
theorem C7_counterexample :
    ceE7a.L3Proto = ceE7b.L3Proto ∧ ceE7a.L4Proto = ceE7b.L4Proto ∧
    ceE7a.Original.SrcIP = ceE7b.Original.SrcIP ∧
    ceE7a.Original.DstIP = ceE7b.Original.DstIP ∧
    ceE7a.Original.Dport = ceE7b.Original.Dport ∧
    ceE7a.Reply = ceE7b.Reply ∧
    ceE7a.OriginalStats = ceE7b.OriginalStats ∧
    ceE7a.ReplyStats = ceE7b.ReplyStats ∧
    ceE7a.Original.Sport ≠ ceE7b.Original.Sport ∧
    buildKey ceE7a ≠ buildKey ceE7b := by
  decide

/-- Witness for C7: two ported records differing only in source port share
one key, and their aggregate is the component-wise sum (here: the doubled
counters of the spec's example). -/
theorem C7_witness :
    buildKey wE7a = buildKey wE7b ∧
    lookupAgg (aggregateEntries [wE7a, wE7b]) (buildKey wE7a) = addVals (addVals {} wE7a) wE7b ∧
    lookupAgg (aggregateEntries [wE7a, wE7b]) (buildKey wE7a) = sumFor [wE7a, wE7b] (buildKey wE7a) :=
  ⟨C7_key_collapse.1 wE7a wE7b rfl rfl rfl rfl rfl (by decide),
   C7_key_collapse.2.2 wE7a wE7b
     (C7_key_collapse.1 wE7a wE7b rfl rfl rfl rfl rfl (by decide)),
   C7_key_collapse.2.1 [wE7a, wE7b] (buildKey wE7a)⟩

/-- **C8**: the spec's end-to-end example. The single raw line aggregates
to exactly one key `{10.0.0.5, 93.184.216.34, ipv4, tcp, 443, https}` with
values `sent 10/1000, reply 8/900`; adding the second line (identical
except `sport=51520`) merges into the same key with all four counters
doubled. -/
theorem C8_end_to_end :
    parseAndAggregate exLine1 = Except.ok [(exKey8, exVals8a)] ∧
    parseAndAggregate (exLine1 ++ "\n" ++ exLine2) = Except.ok [(exKey8, exVals8b)] :=
  ⟨rfl, rfl⟩

/-- **C9**: a parsed record with no ports yields the sentinel key labels
`dport="0"` and `l7protocol="na"`, regardless of the layer-4 protocol. -/
theorem C9_portless_sentinel (e : Entry) (h : e.HasPorts = false) :
    (buildKey e).DPort = "0" ∧ (buildKey e).L7 = "na" := by
  unfold buildKey
  rw [h]
  exact ⟨rfl, rfl⟩

/-- Witness for C9 at a concrete ICMP-like record. -/
theorem C9_witness :
    wE9.HasPorts = false ∧ (buildKey wE9).DPort = "0" ∧ (buildKey wE9).L7 = "na" :=
  ⟨by decide,
   (C9_portless_sentinel wE9 (by decide)).1,
   (C9_portless_sentinel wE9 (by decide)).2⟩

/-- **C10**: a parsed record with a non-empty source port but an empty
destination port does **not** get the sentinel substitution (`HasPorts` is
true), so its key carries `dport=""` and `l7protocol="unknown"`. -/
theorem C10_sport_only_no_sentinel (e : Entry)
    (h1 : e.Original.Sport ≠ "") (h2 : e.Original.Dport = "") :
    (buildKey e).DPort = "" ∧ (buildKey e).L7 = "unknown" := by
  have hp : e.HasPorts = true := by
    unfold Entry.HasPorts
    rw [h2]
    simp [h1]
  unfold buildKey
  rw [hp, h2]
  exact ⟨rfl, rfl⟩

/-- Witness for C10 at a concrete record with `sport=51514` and no dport. -/
theorem C10_witness :
    wE10.Original.Sport ≠ "" ∧ wE10.Original.Dport = "" ∧
    (buildKey wE10).DPort = "" ∧ (buildKey wE10).L7 = "unknown" :=
  ⟨by decide, by decide,
   (C10_sport_only_no_sentinel wE10 (by decide) (by decide)).1,
   (C10_sport_only_no_sentinel wE10 (by decide) (by decide)).2⟩

end ConntrackExporter
